import Mathlib

/-!
Shallow embedding of the `cognito-export` tool (src/index.ts and the second
entry point src/unnamed/part_000) and proofs about its specification.

The tool lists Cognito user pools and identity pools, classifies each as
keep/delete, anonymizes exported user records, and deletes the pools marked
for deletion.  Remote AWS calls are modelled as explicit function parameters
(deterministic oracles, or call-index oracles for the stateful `listUsers`
service); the unbounded pagination loops take an explicit fuel argument and
return `none` on fuel exhaustion.
-/

set_option maxRecDepth 4000

namespace CognitoExport

/-! ## JavaScript string semantics helpers -/

/-- JS `s.indexOf(c)` for a single character: first index, or `-1`. -/
def jsIndexOf (s : String) (c : Char) : Int :=
  match s.toList.findIdx? (fun x => x == c) with
  | some n => (n : Int)
  | none => -1

/-- JS `s.substring(i)`: a negative start index is clamped to `0`. -/
def jsSubstring (s : String) (i : Int) : String :=
  String.mk (s.toList.drop i.toNat)

/-- Replace the first occurrence of `pat` in a list of characters
(JS `String.prototype.replace` with a string pattern replaces only the
first occurrence). -/
def replaceFirstList (pat rep : List Char) : List Char → List Char
  | [] => if pat = [] then rep else []
  | c :: cs =>
    if pat.isPrefixOf (c :: cs) then rep ++ (c :: cs).drop pat.length
    else c :: replaceFirstList pat rep cs

/-- JS `s.replace(pat, rep)` (first occurrence only). -/
def jsReplaceFirst (s pat rep : String) : String :=
  String.mk (replaceFirstList pat.toList rep.toList s.toList)

/-- Whether `pat` occurs (contiguously) somewhere in the list. -/
def hasSubstring (pat : List Char) : List Char → Bool
  | [] => pat.isEmpty
  | c :: cs => pat.isPrefixOf (c :: cs) || hasSubstring pat cs

/-- JS `s.indexOf(sub) >= 0`, i.e. substring containment. -/
def jsContains (s sub : String) : Bool :=
  hasSubstring sub.toList s.toList

/-- JS `s.endsWith(pat)` (structural, over the character lists). -/
def jsEndsWith (s pat : String) : Bool :=
  pat.toList.isSuffixOf s.toList

/-- JS `s.startsWith(pat)` (structural, over the character lists). -/
def jsStartsWith (s pat : String) : Bool :=
  pat.toList.isPrefixOf s.toList

/-- Split a character list at every occurrence of the separator
character. -/
def splitOnCharList (sep : Char) : List Char → List (List Char)
  | [] => [[]]
  | c :: cs =>
    if c == sep then [] :: splitOnCharList sep cs
    else
      match splitOnCharList sep cs with
      | [] => [[c]]
      | w :: ws => (c :: w) :: ws

/-- JS `s.split('-')` for the single-character separator the source
uses. -/
def jsSplitDash (s : String) : List String :=
  (splitOnCharList '-' s.toList).map String.mk

/-! ## Data model -/

/-- One Cognito user attribute (`{ Name, Value }`). -/
structure UserAttribute where
  Name : String
  Value : String
deriving DecidableEq, Repr

/-- A Cognito user record as consumed by the tool. -/
structure CognitoUser where
  Username : String
  UserStatus : String
  Attributes : List UserAttribute
deriving DecidableEq, Repr

/-- A user pool record from `listUserPools`, with the mutable verdict
fields the classifier writes (`none` models a JS `undefined` field). -/
structure UserPool where
  Id : String
  Name : String
  isPrepareToDelete : Option Bool := none
  reasonDelete : Option String := none
  poolUsers : Option (List CognitoUser) := none
deriving DecidableEq, Repr

/-- An identity pool record from `listIdentityPools`, with its verdict
fields. -/
structure IdentityPool where
  IdentityPoolId : String
  isPrepareToDelete : Option Bool := none
  reasonDelete : Option String := none
deriving DecidableEq, Repr

/-- One entry of `CognitoIdentityProviders` in a `describeIdentityPool`
response. -/
structure IdentityProvider where
  ProviderName : String
deriving DecidableEq, Repr

/-- An AWS SDK error as inspected by the code (`error.name`,
`error.message`). -/
structure CogError where
  name : String
  message : String
deriving DecidableEq, Repr

/-! ## Classification of user pools (`main`, first loop) -/

/-- The body of the per-pool classification in `main`: computes
`isAllUserForceChangePassword` and `isEmptyUsers` from the fetched users
and writes the verdict fields, exactly as in src/index.ts lines 154-166. -/
def classifyUserPool (poolUsers : List CognitoUser) (pool : UserPool) : UserPool :=
  let isAllUserForceChangePassword :=
    decide (0 < poolUsers.length) &&
      poolUsers.all (fun poolUser => poolUser.UserStatus == "FORCE_CHANGE_PASSWORD")
  let isEmptyUsers := poolUsers.length == 0
  let pool1 :=
    if isEmptyUsers then
      { pool with
          isPrepareToDelete := some true
          reasonDelete := some "Is empty users"
          poolUsers := some poolUsers }
    else pool
  if isAllUserForceChangePassword then
    { pool1 with
        isPrepareToDelete := some true
        poolUsers := some poolUsers
        reasonDelete := some "Is all users force change password" }
  else pool1

/-- The user-pool classification loop of `main`: `getAllUsers` is modelled
as an oracle from pool id to a result; the `try/catch` around the body
leaves the pool untouched on error and continues with the next pool. -/
def classifyUserPools (fetchUsers : String → Except CogError (List CognitoUser)) :
    List UserPool → List UserPool
  | [] => []
  | pool :: rest =>
    (match fetchUsers pool.Id with
     | Except.ok users => classifyUserPool users pool
     | Except.error _ => pool) :: classifyUserPools fetchUsers rest

/-! ## The paged fetch engine (`pagedAWSCall`)

The remote `action` is modelled as a deterministic function from the
continuation token it is sent (the fixed `params` object is absorbed into
the function); `accessor` and `getNextToken` are as in the source.  The
`do … while (!!nextToken)` loop tests JS truthiness of the token, so the
embedding takes a `truthy` predicate on the token type (for string tokens,
`""` is falsy).  The unbounded loop takes fuel and returns `none` when the
fuel runs out. -/

/-- `pagedAWSCall` from src/index.ts lines 36-56: repeatedly invoke the
action, concatenate each page's items, and loop while the extracted next
token is JS-truthy. -/
def pagedAWSCall {TAPIResult TNextToken TData : Type} (truthy : TNextToken → Bool)
    (action : Option TNextToken → TAPIResult) (accessor : TAPIResult → List TData)
    (getNextToken : TAPIResult → List TData → Option TNextToken) :
    Nat → Option TNextToken → List TData → Option (List TData)
  | 0, _, _ => none
  | fuel + 1, nextToken, result =>
    let response := action nextToken
    let result' := result ++ accessor response
    match getNextToken response result' with
    | some t =>
      if truthy t then pagedAWSCall truthy action accessor getNextToken fuel (some t) result'
      else some result'
    | none => some result'

/-- The sequence of pages the loop of `pagedAWSCall` fetches: the same
recursion, recording each `action` response instead of accumulating
items. -/
def pagedAWSCallPages {TAPIResult TNextToken TData : Type} (truthy : TNextToken → Bool)
    (action : Option TNextToken → TAPIResult) (accessor : TAPIResult → List TData)
    (getNextToken : TAPIResult → List TData → Option TNextToken) :
    Nat → Option TNextToken → List TData → Option (List TAPIResult)
  | 0, _, _ => none
  | fuel + 1, nextToken, result =>
    let response := action nextToken
    let result' := result ++ accessor response
    match getNextToken response result' with
    | some t =>
      if truthy t then
        (pagedAWSCallPages truthy action accessor getNextToken fuel (some t) result').map
          (fun pages => response :: pages)
      else some [response]
    | none => some [response]

/-! ## User enumeration (`getAllUsers`)

`cognito.listUsers` is a remote stateful collaborator: it is modelled as an
oracle from the call index (how many `listUsers` calls were already made)
to a response, so that two calls carrying the same request can answer
differently.  The embedding also records the request each call sends
(`{ UserPoolId, PaginationToken }` — note that `includeCustomAttrs` does
not appear in the request: the `AttributesToGet` line is commented out in
the source, the flag only guards the catch clause). -/

/-- The request object a single `cognito.listUsers` call sends. -/
structure ListUsersRequest where
  UserPoolId : String
  PaginationToken : Option String
deriving DecidableEq, Repr

/-- One `cognito.listUsers` response: users plus optional pagination
token, or a rejection. -/
abbrev ListUsersResponse := Except CogError (List CognitoUser × Option String)

/-- Outcome of a `getAllUsers` run: the returned users (or the propagated
error) together with the requests issued, in order. -/
structure GetAllUsersRun where
  outcome : Except CogError (List CognitoUser)
  requests : List ListUsersRequest
deriving Repr

/-- JS truthiness of an optional string (`undefined` and `""` are falsy). -/
def jsTruthyStr : Option String → Bool
  | none => false
  | some t => !(t == "")

/-- `getAllUsers` from src/index.ts lines 58-79, with its accumulator
arguments explicit.  On a truthy `PaginationToken` it recurses with the
users accumulated so far; in the catch clause, when `includeCustomAttrs`
is set and the error is the `InvalidParameterException` "attributes do not
exist" class, it recurses with `includeCustomAttrs = false` keeping the
same `accumedUsers` and `pageToken`; any other error is rethrown. -/
def getAllUsersAux (svc : Nat → ListUsersResponse) :
    Nat → Nat → String → List CognitoUser → Bool → Option String →
    Option GetAllUsersRun
  | 0, _, _, _, _, _ => none
  | fuel + 1, n, poolId, accumedUsers, includeCustomAttrs, pageToken =>
    let req : ListUsersRequest := ⟨poolId, pageToken⟩
    match svc n with
    | Except.ok (cognitoUsers, nextPageToken) =>
      if jsTruthyStr nextPageToken then
        (getAllUsersAux svc fuel (n + 1) poolId (accumedUsers ++ cognitoUsers)
            includeCustomAttrs nextPageToken).map
          (fun run => ⟨run.outcome, req :: run.requests⟩)
      else some ⟨Except.ok (accumedUsers ++ cognitoUsers), [req]⟩
    | Except.error error =>
      if includeCustomAttrs && error.name == "InvalidParameterException" &&
          jsContains error.message "One or more requested attributes do not exist" then
        (getAllUsersAux svc fuel (n + 1) poolId accumedUsers false pageToken).map
          (fun run => ⟨run.outcome, req :: run.requests⟩)
      else some ⟨Except.error error, [req]⟩

/-- `getAllUsers(poolId)` with the source's default arguments
(`accumedUsers = []`, `includeCustomAttrs = true`, no page token). -/
def getAllUsers (svc : Nat → ListUsersResponse) (fuel : Nat) (poolId : String) :
    Option GetAllUsersRun :=
  getAllUsersAux svc fuel 0 poolId [] true none

/-! ## Pool inventory caches -/

/-- A module-level inventory cache (`cachedUserPoolIds` /
`cachedIdentityPoolIds`) together with a counter of how many remote
full-listing fetches were performed. -/
structure ListCache (α : Type) where
  cache : List α
  fetches : Nat
deriving Repr

/-- `listUserPools` from src/index.ts lines 116-141: if the cache is
empty, drain the full paginated listing (abstracted here as the drained
result `fetchedUserPools`, one remote fetch) and push it into the cache;
then return the cache. -/
def listUserPools (fetchedUserPools : List UserPool) (st : ListCache UserPool) :
    List UserPool × ListCache UserPool :=
  if st.cache.length == 0 then
    let st' : ListCache UserPool := ⟨st.cache ++ fetchedUserPools, st.fetches + 1⟩
    (st'.cache, st')
  else (st.cache, st)

/-- `listIdentityPools` from src/index.ts lines 84-108, same shape as
`listUserPools` on its own cache. -/
def listIdentityPools (fetchedIdentityPools : List IdentityPool)
    (st : ListCache IdentityPool) : List IdentityPool × ListCache IdentityPool :=
  if st.cache.length == 0 then
    let st' : ListCache IdentityPool := ⟨st.cache ++ fetchedIdentityPools, st.fetches + 1⟩
    (st'.cache, st')
  else (st.cache, st)

/-! ## Classification of identity pools -/

/-- `findUserPoolByProviderName` from src/index.ts lines 200-206:
the retained (`realPools`) user pools whose id is a `/`-suffix of the
provider name, kept only when the provider name has the `cognito-idp`
prefix. -/
def findUserPoolByProviderName (realPools : List UserPool) (providerName : String) :
    List UserPool :=
  let userPoolMatchs := realPools.filter (fun pool => jsEndsWith providerName ("/" ++ pool.Id))
  if jsStartsWith providerName "cognito-idp" && decide (0 < userPoolMatchs.length) then
    userPoolMatchs
  else []

/-- The per-identity-pool body of the classification loop (src/index.ts
lines 211-223), given the `CognitoIdentityProviders` of the describe
response: zero providers marks delete, a single provider is cross-checked
against the retained user pools, two or more providers only log. -/
def classifyIdentityPool (realPools : List UserPool) (providers : List IdentityProvider)
    (identityPool : IdentityPool) : IdentityPool :=
  match providers with
  | [] =>
    { identityPool with
        isPrepareToDelete := some true
        reasonDelete := some "CognitoIdentityProviders empty" }
  | [provider] =>
    let providerName := provider.ProviderName
    let userPoolMatchs := findUserPoolByProviderName realPools providerName
    if userPoolMatchs.length == 0 then
      { identityPool with
          isPrepareToDelete := some true
          reasonDelete := some ("ProviderName " ++ providerName ++ " not match any user pool") }
    else identityPool
  | _ => identityPool

/-- The identity-pool classification loop of `main` (src/index.ts lines
208-224).  There is no `try/catch` in this loop: a failing
`describeIdentityPool` aborts it, so the result is either the fully
classified list or the first error together with the list as it stands at
the abort (already-processed pools classified, the failing pool and its
successors untouched). -/
def classifyIdentityPools (describe : String → Except CogError (List IdentityProvider))
    (realPools : List UserPool) :
    List IdentityPool → Except (CogError × List IdentityPool) (List IdentityPool)
  | [] => Except.ok []
  | identityPool :: rest =>
    match describe identityPool.IdentityPoolId with
    | Except.error e => Except.error (e, identityPool :: rest)
    | Except.ok providers =>
      let identityPool' := classifyIdentityPool realPools providers identityPool
      match classifyIdentityPools describe realPools rest with
      | Except.ok rest' => Except.ok (identityPool' :: rest')
      | Except.error (e, rest') => Except.error (e, identityPool' :: rest')

/-! ## Retirement executor -/

/-- The remote delete/describe calls the retirement loops issue, in
order. -/
inductive AwsCall where
  | describeUserPool (userPoolId : String)
  | deleteUserPoolDomain (userPoolId : String) (domain : String)
  | deleteUserPool (userPoolId : String)
  | deleteIdentityPool (identityPoolId : String)
deriving DecidableEq, Repr

/-- The call trace of the user-pool retirement loop in src/index.ts lines
237-253: for each pool marked delete, describe it, delete its domain when
the describe response carries a truthy `Domain`, then delete the pool.
`domainOf` is the `Domain` field of the describe response. -/
def retireUserPools (domainOf : String → Option String) (deletePools : List UserPool) :
    List AwsCall :=
  deletePools.flatMap (fun deletePool =>
    AwsCall.describeUserPool deletePool.Id ::
      (match domainOf deletePool.Id with
       | some domain =>
         if domain == "" then [] else [AwsCall.deleteUserPoolDomain deletePool.Id domain]
       | none => []) ++ [AwsCall.deleteUserPool deletePool.Id])

/-- The call trace of the user-pool retirement loop of the second entry
point (src/unnamed/part_000 lines 367-373): it deletes each pool directly,
with no describe call and no domain deletion. -/
def retireUserPoolsAlt (deletePools : List UserPool) : List AwsCall :=
  deletePools.flatMap (fun deletePool => [AwsCall.deleteUserPool deletePool.Id])

/-! ## Anonymization transform (src/unnamed/part_000 lines 122-156)

`moniker`'s `names.choose()` draws successive fabricated `adjective-noun`
words: it is modelled as a stream `names : Nat → String`, with the index
of the next draw carried in the scrub state.  The lodash `memoize` cache
is the explicit association list `memo`. -/

/-- A fabricated identity `{first, last, email}`. -/
structure ScrubIdentity where
  first : String
  last : String
  email : String
deriving DecidableEq, Repr

/-- State of the memoized anonymizer: the memo table keyed by original
email, and the index of the next name to draw. -/
structure ScrubState where
  memo : List (String × ScrubIdentity)
  nextName : Nat
deriving DecidableEq, Repr

/-- `scrubbedEmailMemo` from src/unnamed/part_000 lines 122-134: on a memo
hit return the cached identity; otherwise take the domain as
`email.substring(email.indexOf('@'))`, draw a name, split it on `-` into
first/last, and build `name.replace('-', '.') + domain`. -/
def scrubbedEmailMemo (names : Nat → String) (st : ScrubState) (email : String) :
    ScrubIdentity × ScrubState :=
  match st.memo.lookup email with
  | some cached => (cached, st)
  | none =>
    let domain := jsSubstring email (jsIndexOf email '@')
    let name := names st.nextName
    let first := (jsSplitDash name).getD 0 ""
    let last := (jsSplitDash name).getD 1 ""
    let newEmail := jsReplaceFirst name "-" "." ++ domain
    let fresh : ScrubIdentity := ⟨first, last, newEmail⟩
    (fresh, ⟨(email, fresh) :: st.memo, st.nextName + 1⟩)

/-- The email the scrubber reads from a user record: the value of the
`email` attribute, defaulting to `""` when the attribute is absent. -/
def oldEmailOf (user : CognitoUser) : String :=
  ((user.Attributes.find? (fun attr => attr.Name == "email")).getD ⟨"email", ""⟩).Value

/-- `scrubPoolUser` from src/unnamed/part_000 lines 136-156: a record
whose email ends in `cleo.com` or `mailosaur.io` is returned unchanged;
otherwise the memoized identity replaces the `email`, `given_name` and
`family_name` attributes (dropping any `preferred_name`), and the username
when it contains `@`. -/
def scrubPoolUser (names : Nat → String) (st : ScrubState) (user : CognitoUser) :
    CognitoUser × ScrubState :=
  let oldEmail := oldEmailOf user
  if jsEndsWith oldEmail "cleo.com" || jsEndsWith oldEmail "mailosaur.io" then (user, st)
  else
    let scrubbed := scrubbedEmailMemo names st oldEmail
    let newEmail := scrubbed.1.email
    let isUserNameAnEmail := decide (0 ≤ jsIndexOf user.Username '@')
    ({ user with
        Username := if isUserNameAnEmail then newEmail else user.Username
        Attributes :=
          (user.Attributes.filter (fun attr =>
              !(["given_name", "family_name", "preferred_name", "email"].contains attr.Name))) ++
            [⟨"email", newEmail⟩, ⟨"given_name", scrubbed.1.first⟩,
              ⟨"family_name", scrubbed.1.last⟩] },
     scrubbed.2)

/-! ## Concrete fixtures used by witnesses and counterexamples -/

/-- A user pool record as produced by the listing (no verdict fields). -/
def poolA : UserPool := { Id := "eu-central-1_A", Name := "pool-a" }

/-- A second user pool record. -/
def poolB : UserPool := { Id := "eu-central-1_B", Name := "pool-b" }

/-- An identity pool record as produced by the listing. -/
def idPoolA : IdentityPool := { IdentityPoolId := "eu-central-1:aaa" }

/-- A second identity pool record. -/
def idPoolB : IdentityPool := { IdentityPoolId := "eu-central-1:bbb" }

/-- A third identity pool record. -/
def idPoolC : IdentityPool := { IdentityPoolId := "eu-central-1:ccc" }

/-- A confirmed user. -/
def userU1 : CognitoUser :=
  { Username := "u1", UserStatus := "CONFIRMED", Attributes := [] }

/-- A second confirmed user. -/
def userU2 : CognitoUser :=
  { Username := "u2", UserStatus := "CONFIRMED", Attributes := [] }

/-- A user who never completed initial password setup. -/
def userForce : CognitoUser :=
  { Username := "u3", UserStatus := "FORCE_CHANGE_PASSWORD", Attributes := [] }

/-! ## C1 — user-pool classification -/

/-- C1 counterexample: the claim says an empty user pool is marked with
reason "empty users", but the code writes the reason string
`"Is empty users"` (and, symmetrically, `"Is all users force change
password"` rather than "all users force change password"): on the empty
pool `poolA` the pool is marked prepare-to-delete, yet its
`reasonDelete` is not `"empty users"`. -/
theorem classifyUserPool_reason_counterexample :
    (classifyUserPool [] poolA).isPrepareToDelete = some true ∧
    (classifyUserPool [] poolA).reasonDelete ≠ some "empty users" ∧
    (classifyUserPool [] poolA).reasonDelete = some "Is empty users" := by
  decide

/-- C1 (amended): for a pool whose enumeration succeeds, an empty user
list marks the pool prepare-to-delete with reason `"Is empty users"`; a
non-empty list whose every user has status `FORCE_CHANGE_PASSWORD` marks
it with reason `"Is all users force change password"`; otherwise the pool
record is returned unchanged (kept, no verdict fields set). -/
theorem classifyUserPool_spec (poolUsers : List CognitoUser) (pool : UserPool) :
    (poolUsers = [] →
      classifyUserPool poolUsers pool =
        { pool with
            isPrepareToDelete := some true
            reasonDelete := some "Is empty users"
            poolUsers := some poolUsers }) ∧
    (poolUsers ≠ [] →
      poolUsers.all (fun u => u.UserStatus == "FORCE_CHANGE_PASSWORD") = true →
      classifyUserPool poolUsers pool =
        { pool with
            isPrepareToDelete := some true
            reasonDelete := some "Is all users force change password"
            poolUsers := some poolUsers }) ∧
    (poolUsers ≠ [] →
      poolUsers.all (fun u => u.UserStatus == "FORCE_CHANGE_PASSWORD") = false →
      classifyUserPool poolUsers pool = pool) := by
  refine ⟨?_, ?_, ?_⟩
  · rintro rfl
    rfl
  · intro hne hall
    cases poolUsers with
    | nil => exact absurd rfl hne
    | cons u us => simp [classifyUserPool, hall]
  · intro hne hall
    cases poolUsers with
    | nil => exact absurd rfl hne
    | cons u us => simp [classifyUserPool, hall]

/-- Witness for C1's amended theorem: a pool whose only user is in
`FORCE_CHANGE_PASSWORD` state is marked with the force-change reason. -/
theorem classifyUserPool_spec_witness :
    classifyUserPool [userForce] poolA =
      { poolA with
          isPrepareToDelete := some true
          reasonDelete := some "Is all users force change password"
          poolUsers := some [userForce] } :=
  (classifyUserPool_spec [userForce] poolA).2.1 (by decide) (by decide)

/-! ## C2 — identity-pool classification -/

/-- C2: an identity pool with zero configured providers is marked with
reason `"CognitoIdentityProviders empty"`; with exactly one provider whose
name has the `cognito-idp` prefix and ends in `/` followed by the id of a
retained user pool it is returned unchanged; with exactly one provider
recognized by `findUserPoolByProviderName` as matching no retained pool it
is marked with a reason naming the provider; with two or more providers it
is always returned unchanged (never auto-deleted). -/
theorem classifyIdentityPool_spec (realPools : List UserPool)
    (providers : List IdentityProvider) (identityPool : IdentityPool) :
    (providers = [] →
      classifyIdentityPool realPools providers identityPool =
        { identityPool with
            isPrepareToDelete := some true
            reasonDelete := some "CognitoIdentityProviders empty" }) ∧
    (∀ provider, providers = [provider] →
      jsStartsWith provider.ProviderName "cognito-idp" = true →
      (∃ pool ∈ realPools, jsEndsWith provider.ProviderName ("/" ++ pool.Id) = true) →
      classifyIdentityPool realPools providers identityPool = identityPool) ∧
    (∀ provider, providers = [provider] →
      findUserPoolByProviderName realPools provider.ProviderName = [] →
      classifyIdentityPool realPools providers identityPool =
        { identityPool with
            isPrepareToDelete := some true
            reasonDelete := some ("ProviderName " ++ provider.ProviderName ++
              " not match any user pool") }) ∧
    (2 ≤ providers.length →
      classifyIdentityPool realPools providers identityPool = identityPool) := by
  refine ⟨?_, ?_, ?_, ?_⟩
  · rintro rfl
    rfl
  · rintro provider rfl hpre hex
    obtain ⟨pool, hmem, hsuf⟩ := hex
    have hfilter : pool ∈ realPools.filter
        (fun pool => jsEndsWith provider.ProviderName ("/" ++ pool.Id)) :=
      List.mem_filter.mpr ⟨hmem, hsuf⟩
    have hpos : 0 < (realPools.filter
        (fun pool => jsEndsWith provider.ProviderName ("/" ++ pool.Id))).length :=
      List.length_pos.mpr (List.ne_nil_of_mem hfilter)
    simp [classifyIdentityPool, findUserPoolByProviderName, hpre, hpos,
      List.length_eq_zero, List.ne_nil_of_mem hfilter]
  · rintro provider rfl hfind
    simp [classifyIdentityPool, hfind]
  · intro h2
    match providers, h2 with
    | p :: q :: rest, _ => rfl

/-- Witness for C2: an identity pool with zero providers is marked. -/
theorem classifyIdentityPool_spec_witness :
    classifyIdentityPool [] [] idPoolA =
      { idPoolA with
          isPrepareToDelete := some true
          reasonDelete := some "CognitoIdentityProviders empty" } :=
  (classifyIdentityPool_spec [] [] idPoolA).1 rfl

/-! ## C6 — failure isolation across the processing loops -/

/-- A describe oracle that fails on `idPoolB` and reports zero providers
for every other identity pool. -/
def describeBoom : String → Except CogError (List IdentityProvider) :=
  fun identityPoolId =>
    if identityPoolId == "eu-central-1:bbb" then
      Except.error { name := "InternalErrorException", message := "boom" }
    else Except.ok []

/-- C6 counterexample: the identity-pool classification loop has no
`try/catch`, so the describe failure on `idPoolB` aborts the loop:
`idPoolC` keeps no verdict even though its own describe call succeeds and
would have marked it (`classifyIdentityPool` on its zero providers does
mark it).  A failure on one item thus prevents processing of a remaining
sibling. -/
theorem classifyIdentityPools_abort_counterexample :
    classifyIdentityPools describeBoom [] [idPoolA, idPoolB, idPoolC] =
      Except.error ({ name := "InternalErrorException", message := "boom" },
        [{ idPoolA with
             isPrepareToDelete := some true
             reasonDelete := some "CognitoIdentityProviders empty" },
          idPoolB, idPoolC]) ∧
    idPoolC.isPrepareToDelete = none ∧
    (classifyIdentityPool [] [] idPoolC).isPrepareToDelete = some true := by
  exact ⟨rfl, rfl, rfl⟩

/-- C6 (amended): only the user-pool classification loop isolates per-item
failures — its `try/catch` makes each pool's outcome depend only on that
pool's own `getAllUsers` result, so the loop equals an independent map
over the pools; the identity-pool classification loop (and the deletion
loops) have no such guard and stop at the first failure. -/
theorem classifyUserPools_isolated
    (fetchUsers : String → Except CogError (List CognitoUser))
    (pools : List UserPool) :
    classifyUserPools fetchUsers pools =
      pools.map (fun pool =>
        match fetchUsers pool.Id with
        | Except.ok users => classifyUserPool users pool
        | Except.error _ => pool) := by
  induction pools with
  | nil => rfl
  | cons pool rest ih => simp [classifyUserPools, ih]

/-! ## C9 — inventory caches -/

/-- C9 counterexample: the cache guard is `cache.length === 0`, so when
the first listing returns the empty list the cache stays empty and the
second call fetches again — two remote fetches, contradicting "at most
once … regardless of what the first listing returned". -/
theorem listUserPools_empty_refetch_counterexample :
    (listUserPools [] ⟨[], 0⟩).2.fetches = 1 ∧
    ((listUserPools [] ((listUserPools [] ⟨[], 0⟩).2)).2).fetches = 2 := by
  exact ⟨rfl, rfl⟩

/-- C9 (amended): a call finding a non-empty cache returns it without any
remote fetch, and a first call whose drained listing is non-empty leaves a
non-empty cache (so every later call takes the no-fetch branch); the
remote listing is therefore performed at most once per run provided the
first listing is non-empty.  Both caches behave identically. -/
theorem listPools_cache_spec (fetchedUserPools : List UserPool)
    (fetchedIdentityPools : List IdentityPool) (stU : ListCache UserPool)
    (stI : ListCache IdentityPool) :
    (stU.cache ≠ [] → listUserPools fetchedUserPools stU = (stU.cache, stU)) ∧
    (stU.cache = [] → fetchedUserPools ≠ [] →
      ((listUserPools fetchedUserPools stU).2).cache ≠ [] ∧
      (listUserPools fetchedUserPools stU).1 = fetchedUserPools ∧
      ((listUserPools fetchedUserPools stU).2).fetches = stU.fetches + 1) ∧
    (stI.cache ≠ [] → listIdentityPools fetchedIdentityPools stI = (stI.cache, stI)) ∧
    (stI.cache = [] → fetchedIdentityPools ≠ [] →
      ((listIdentityPools fetchedIdentityPools stI).2).cache ≠ [] ∧
      (listIdentityPools fetchedIdentityPools stI).1 = fetchedIdentityPools ∧
      ((listIdentityPools fetchedIdentityPools stI).2).fetches = stI.fetches + 1) := by
  refine ⟨?_, ?_, ?_, ?_⟩
  · intro h
    simp [listUserPools, List.length_eq_zero, h]
  · intro h hne
    simp [listUserPools, List.length_eq_zero, h, hne]
  · intro h
    simp [listIdentityPools, List.length_eq_zero, h]
  · intro h hne
    simp [listIdentityPools, List.length_eq_zero, h, hne]

/-- Witness for C9's amended theorem: after a first call that drains the
one-pool listing `[poolA]`, a second call returns the stored list with no
further fetch. -/
theorem listPools_cache_spec_witness :
    listUserPools [poolA] ((listUserPools [poolA] ⟨[], 0⟩).2) =
      (((listUserPools [poolA] ⟨[], 0⟩).2).cache, (listUserPools [poolA] ⟨[], 0⟩).2) :=
  (listPools_cache_spec [poolA] [] ((listUserPools [poolA] ⟨[], 0⟩).2) ⟨[], 0⟩).1
    (by decide)

/-! ## C3 — the paged fetch engine -/

/-- JS truthiness of a string continuation token: `""` is falsy. -/
def jsStringTruthy (t : String) : Bool := !(t == "")

/-- The loop-shape property of a fetched page sequence: every page before
the last yields a truthy continuation cursor (so the loop goes on), and
the last page yields either no cursor or a falsy one (so the loop stops).
The accumulator argument tracks the items accumulated before each cursor
extraction, since `getNextToken` receives them. -/
def continuesThenStops {TAPIResult TNextToken TData : Type} (truthy : TNextToken → Bool)
    (accessor : TAPIResult → List TData)
    (getNextToken : TAPIResult → List TData → Option TNextToken) :
    List TData → List TAPIResult → Prop
  | _, [] => False
  | acc, [page] =>
    ∀ t, getNextToken page (acc ++ accessor page) = some t → truthy t = false
  | acc, page :: rest =>
    (∃ t, getNextToken page (acc ++ accessor page) = some t ∧ truthy t = true) ∧
      continuesThenStops truthy accessor getNextToken (acc ++ accessor page) rest

/-- The items `pagedAWSCall` returns are the initial accumulator followed
by the items of each fetched page, in arrival order. -/
theorem pagedAWSCall_eq_flatten {TAPIResult TNextToken TData : Type}
    (truthy : TNextToken → Bool) (action : Option TNextToken → TAPIResult)
    (accessor : TAPIResult → List TData)
    (getNextToken : TAPIResult → List TData → Option TNextToken) :
    ∀ (fuel : Nat) (nextToken : Option TNextToken) (result : List TData)
      (pages : List TAPIResult),
      pagedAWSCallPages truthy action accessor getNextToken fuel nextToken result =
        some pages →
      pagedAWSCall truthy action accessor getNextToken fuel nextToken result =
        some (result ++ (pages.map accessor).flatten)
  | 0, _, _, _, h => by cases h
  | fuel + 1, nextToken, result, pages, h => by
    rw [pagedAWSCallPages] at h
    rw [pagedAWSCall]
    cases hnext : getNextToken (action nextToken) (result ++ accessor (action nextToken)) with
    | none =>
      rw [hnext] at h
      dsimp only at h ⊢
      cases h
      simp
    | some t =>
      rw [hnext] at h
      dsimp only at h ⊢
      by_cases ht : truthy t = true
      · rw [if_pos ht] at h ⊢
        obtain ⟨rest, hrest, rfl⟩ := Option.map_eq_some'.mp h
        have ih := pagedAWSCall_eq_flatten truthy action accessor getNextToken fuel
          (some t) (result ++ accessor (action nextToken)) rest hrest
        rw [ih]
        simp
      · rw [if_neg ht] at h ⊢
        cases h
        simp

/-- The pages `pagedAWSCall` fetches satisfy `continuesThenStops`: the loop
keeps calling the action exactly while the extracted cursor is truthy. -/
theorem pagedAWSCallPages_continuesThenStops {TAPIResult TNextToken TData : Type}
    (truthy : TNextToken → Bool) (action : Option TNextToken → TAPIResult)
    (accessor : TAPIResult → List TData)
    (getNextToken : TAPIResult → List TData → Option TNextToken) :
    ∀ (fuel : Nat) (nextToken : Option TNextToken) (result : List TData)
      (pages : List TAPIResult),
      pagedAWSCallPages truthy action accessor getNextToken fuel nextToken result =
        some pages →
      continuesThenStops truthy accessor getNextToken result pages
  | 0, _, _, _, h => by cases h
  | fuel + 1, nextToken, result, pages, h => by
    rw [pagedAWSCallPages] at h
    cases hnext : getNextToken (action nextToken) (result ++ accessor (action nextToken)) with
    | none =>
      rw [hnext] at h
      dsimp only at h
      cases h
      intro t ht
      rw [hnext] at ht
      cases ht
    | some t =>
      rw [hnext] at h
      dsimp only at h
      by_cases ht : truthy t = true
      · rw [if_pos ht] at h
        obtain ⟨rest, hrest, rfl⟩ := Option.map_eq_some'.mp h
        have ih := pagedAWSCallPages_continuesThenStops truthy action accessor getNextToken
          fuel (some t) (result ++ accessor (action nextToken)) rest hrest
        cases rest with
        | nil => exact absurd ih (by simp [continuesThenStops])
        | cons q qs => exact ⟨⟨t, hnext, ht⟩, ih⟩
      · rw [if_neg ht] at h
        cases h
        intro t' ht'
        rw [hnext] at ht'
        cases ht'
        exact Bool.eq_false_iff.mpr ht

/-- C3 (amended): given that the loop terminates within the fuel with page
trace `pages`, (a) `pagedAWSCall` returns the accumulator followed by the
concatenation of every fetched page's items in first-page-first order,
(b) the trace is non-empty and the loop continues exactly while the
extracted cursor is truthy — it stops when the extraction yields no cursor
*or a JS-falsy cursor value such as `""`* — and (c) a page carrying zero
items whose cursor is truthy does not terminate the fetch: the loop step
continues unchanged. -/
theorem pagedAWSCall_paging_spec {TAPIResult TNextToken TData : Type}
    (truthy : TNextToken → Bool) (action : Option TNextToken → TAPIResult)
    (accessor : TAPIResult → List TData)
    (getNextToken : TAPIResult → List TData → Option TNextToken)
    (fuel : Nat) (nextToken : Option TNextToken) (result : List TData)
    (pages : List TAPIResult)
    (hpages : pagedAWSCallPages truthy action accessor getNextToken fuel nextToken result =
      some pages) :
    pagedAWSCall truthy action accessor getNextToken fuel nextToken result =
      some (result ++ (pages.map accessor).flatten) ∧
    pages ≠ [] ∧
    continuesThenStops truthy accessor getNextToken result pages ∧
    (∀ (tok : Option TNextToken) (acc : List TData) (f : Nat) (t : TNextToken),
      accessor (action tok) = [] →
      getNextToken (action tok) acc = some t →
      truthy t = true →
      pagedAWSCall truthy action accessor getNextToken (f + 1) tok acc =
        pagedAWSCall truthy action accessor getNextToken f (some t) acc) := by
  refine ⟨pagedAWSCall_eq_flatten truthy action accessor getNextToken fuel nextToken
      result pages hpages, ?_, pagedAWSCallPages_continuesThenStops truthy action accessor
      getNextToken fuel nextToken result pages hpages, ?_⟩
  · intro hnil
    subst hnil
    exact pagedAWSCallPages_continuesThenStops truthy action accessor getNextToken fuel
      nextToken result [] hpages
  · intro tok acc f t hzero hcursor htruthy
    rw [pagedAWSCall]
    rw [hzero, List.append_nil, hcursor]
    dsimp only
    rw [if_pos htruthy]

/-- A three-page demo backend: pages of sizes 3, 0, 1, the middle page
carrying zero items but a valid cursor. -/
def pagedDemoAction : Option String → List Nat × Option String
  | none => ([1, 2, 3], some "a")
  | some "a" => ([], some "b")
  | some _ => ([7], none)

/-- A one-page backend whose sole page yields the JS-falsy cursor `""`
while announcing more data behind it. -/
def pagedEmptyCursorAction : Option String → List Nat × Option String
  | none => ([1], some "")
  | some _ => ([2], none)

/-- C3 counterexample: the claim says the action stops being invoked
*exactly* when the cursor extraction yields no cursor; but the loop tests
JS truthiness (`!!nextToken`), so on a backend whose first page yields the
cursor `some ""` the fetch stops after one page — the extraction yielded a
cursor, the second page (with item 2) is never fetched. -/
theorem pagedAWSCall_falsy_cursor_counterexample :
    pagedAWSCall jsStringTruthy pagedEmptyCursorAction Prod.fst (fun r _ => r.2)
      10 none [] = some [1] ∧
    (pagedEmptyCursorAction none).2 = some "" ∧
    pagedAWSCallPages jsStringTruthy pagedEmptyCursorAction Prod.fst (fun r _ => r.2)
      10 none [] = some [([1], some "")] := by
  exact ⟨rfl, rfl, rfl⟩

/-- Witness for C3's amended theorem on the three-page demo backend: all
seven items arrive in order, and the trace satisfies the loop-shape
property. -/
theorem pagedAWSCall_paging_spec_witness :
    pagedAWSCall jsStringTruthy pagedDemoAction Prod.fst (fun r _ => r.2) 10 none [] =
      some [1, 2, 3, 7] ∧
    continuesThenStops jsStringTruthy Prod.fst (fun r _ => r.2) []
      [([1, 2, 3], some "a"), ([], some "b"), ([7], none)] := by
  have h := pagedAWSCall_paging_spec jsStringTruthy pagedDemoAction Prod.fst
    (fun r _ => r.2) 10 none []
    [([1, 2, 3], some "a"), ([], some "b"), ([7], none)] rfl
  exact ⟨h.1, h.2.2.1⟩

/-! ## C4 — the attribute-downgrade retry of `getAllUsers` -/

/-- The "attributes do not exist" `InvalidParameterException` the catch
clause recognizes. -/
def attrError : CogError :=
  { name := "InvalidParameterException",
    message := "One or more requested attributes do not exist" }

/-- A `listUsers` oracle: the first call returns one user and the token
`"t1"`, the second call rejects with the attribute error, every later call
returns one user and no token. -/
def retrySvc : Nat → ListUsersResponse
  | 0 => Except.ok ([userU1], some "t1")
  | 1 => Except.error attrError
  | _ => Except.ok ([userU2], none)

/-- C4 counterexample: the claim says the retry restarts the entire
enumeration from the beginning with no partial results; but the catch
clause recurses with the *same* `accumedUsers` and `pageToken`.  On
`retrySvc` the enumeration returns `[userU1, userU2]` — `userU1` is a
partial result of the failed attempt — and the third request (the retried
call) still carries `PaginationToken "t1"` rather than none; a restart
from the beginning would instead have made a token-less request and (on
this oracle) returned `[userU2]`. -/
theorem getAllUsers_retry_counterexample :
    getAllUsers retrySvc 10 "pool-1" =
      some ⟨Except.ok [userU1, userU2],
        [⟨"pool-1", none⟩, ⟨"pool-1", some "t1"⟩, ⟨"pool-1", some "t1"⟩]⟩ ∧
    (⟨"pool-1", some "t1"⟩ : ListUsersRequest).PaginationToken ≠ none ∧
    ([userU1, userU2] : List CognitoUser) ≠ [userU2] := by
  refine ⟨rfl, by decide, by decide⟩

/-- C4 (amended): when a `listUsers` call rejects with the
`InvalidParameterException` "attributes do not exist" error while
`includeCustomAttrs` is set, `getAllUsers` retries with
`includeCustomAttrs` disabled, *resuming from the current position*: it
keeps the accumulated users and the current page token.  Any other error
propagates, and a second attribute error (flag already disabled)
propagates as well — the downgrade happens at most once. -/
theorem getAllUsers_downgrade_retry_spec (svc : Nat → ListUsersResponse)
    (fuel n : Nat) (poolId : String) (accumedUsers : List CognitoUser)
    (pageToken : Option String) (e : CogError) (h : svc n = Except.error e) :
    ((e.name == "InvalidParameterException" &&
        jsContains e.message "One or more requested attributes do not exist") = true →
      getAllUsersAux svc (fuel + 1) n poolId accumedUsers true pageToken =
        (getAllUsersAux svc fuel (n + 1) poolId accumedUsers false pageToken).map
          (fun run => ⟨run.outcome, ⟨poolId, pageToken⟩ :: run.requests⟩)) ∧
    ((e.name == "InvalidParameterException" &&
        jsContains e.message "One or more requested attributes do not exist") = false →
      getAllUsersAux svc (fuel + 1) n poolId accumedUsers true pageToken =
        some ⟨Except.error e, [⟨poolId, pageToken⟩]⟩) ∧
    getAllUsersAux svc (fuel + 1) n poolId accumedUsers false pageToken =
      some ⟨Except.error e, [⟨poolId, pageToken⟩]⟩ := by
  refine ⟨?_, ?_, ?_⟩
  · intro hc
    rw [getAllUsersAux, h]
    dsimp only
    rw [Bool.true_and, hc, if_pos rfl]
  · intro hc
    rw [getAllUsersAux, h]
    dsimp only
    rw [Bool.true_and, hc]
    rfl
  · rw [getAllUsersAux, h]
    dsimp only
    rw [Bool.false_and]
    rfl

/-- Witness for C4's amended theorem: on `retrySvc`'s failing second call
the enumeration continues with the flag disabled, the same accumulated
user list `[userU1]` and the same page token `"t1"`. -/
theorem getAllUsers_downgrade_retry_spec_witness :
    getAllUsersAux retrySvc 5 1 "pool-1" [userU1] true (some "t1") =
      (getAllUsersAux retrySvc 4 2 "pool-1" [userU1] false (some "t1")).map
        (fun run => ⟨run.outcome, ⟨"pool-1", some "t1"⟩ :: run.requests⟩) :=
  (getAllUsers_downgrade_retry_spec retrySvc 4 1 "pool-1" [userU1] (some "t1")
    attrError rfl).1 (by decide)

/-! ## C5 — domain deletion before pool deletion -/

/-- A user pool that has a custom domain attached. -/
def poolWithDomain : UserPool := { Id := "eu-central-1_D", Name := "pool-d" }

/-- A describe oracle reporting the domain `"auth-domain"` for
`poolWithDomain` and no domain otherwise. -/
def demoDomainOf : String → Option String :=
  fun poolId => if poolId == "eu-central-1_D" then some "auth-domain" else none

/-- Unfolding the retirement trace of src/index.ts over the first pool. -/
theorem retireUserPools_cons (domainOf : String → Option String) (q : UserPool)
    (rest : List UserPool) :
    retireUserPools domainOf (q :: rest) =
      (AwsCall.describeUserPool q.Id ::
        (match domainOf q.Id with
         | some domain =>
           if domain == "" then [] else [AwsCall.deleteUserPoolDomain q.Id domain]
         | none => []) ++ [AwsCall.deleteUserPool q.Id]) ++
        retireUserPools domainOf rest := by
  simp [retireUserPools]

/-- C5 counterexample: the claim says the domain-delete precedes the
pool-delete *in both entry points*; but the retirement loop of the second
entry point (src/unnamed/part_000 lines 367-373) issues no describe call
and no domain-delete at all: for `poolWithDomain`, whose describe response
carries the domain `"auth-domain"`, its trace is just the pool-delete
call. -/
theorem retireUserPoolsAlt_no_domain_counterexample :
    demoDomainOf "eu-central-1_D" = some "auth-domain" ∧
    retireUserPoolsAlt [poolWithDomain] = [AwsCall.deleteUserPool "eu-central-1_D"] ∧
    AwsCall.deleteUserPoolDomain "eu-central-1_D" "auth-domain" ∉
      retireUserPoolsAlt [poolWithDomain] := by
  refine ⟨rfl, rfl, by decide⟩

/-- C5 (amended): in the src/index.ts entry point, for every pool marked
for deletion whose describe response carries a non-empty domain, the
retirement trace contains the domain-delete call strictly before the
pool-delete call for that pool; the second entry point deletes pools
directly with no domain call. -/
theorem retireUserPools_domain_before_delete (domainOf : String → Option String)
    (deletePools : List UserPool) (pool : UserPool) (domain : String)
    (hmem : pool ∈ deletePools) (hdom : domainOf pool.Id = some domain)
    (hne : domain ≠ "") :
    ∃ pre mid post,
      retireUserPools domainOf deletePools =
        pre ++ AwsCall.deleteUserPoolDomain pool.Id domain ::
          (mid ++ AwsCall.deleteUserPool pool.Id :: post) := by
  induction deletePools with
  | nil => cases hmem
  | cons q rest ih =>
    rcases List.mem_cons.mp hmem with rfl | hmem'
    · refine ⟨[AwsCall.describeUserPool pool.Id], [], retireUserPools domainOf rest, ?_⟩
      rw [retireUserPools_cons, hdom]
      have hbeq : (domain == "") = false := beq_eq_false_iff_ne.mpr hne
      dsimp only
      simp [hbeq]
    · obtain ⟨pre, mid, post, hdecomp⟩ := ih hmem'
      refine ⟨(AwsCall.describeUserPool q.Id ::
        (match domainOf q.Id with
         | some d => if d == "" then [] else [AwsCall.deleteUserPoolDomain q.Id d]
         | none => []) ++ [AwsCall.deleteUserPool q.Id]) ++ pre, mid, post, ?_⟩
      rw [retireUserPools_cons, hdecomp]
      simp

/-- Witness for C5's amended theorem: on the one-pool delete list
`[poolWithDomain]`, the domain-delete precedes the pool-delete. -/
theorem retireUserPools_domain_before_delete_witness :
    ∃ pre mid post,
      retireUserPools demoDomainOf [poolWithDomain] =
        pre ++ AwsCall.deleteUserPoolDomain poolWithDomain.Id "auth-domain" ::
          (mid ++ AwsCall.deleteUserPool poolWithDomain.Id :: post) :=
  retireUserPools_domain_before_delete demoDomainOf [poolWithDomain] poolWithDomain
    "auth-domain" (List.mem_singleton.mpr rfl) rfl (by decide)

/-! ## Helper lemmas about the anonymization transform -/

/-- Characters of a first-occurrence replacement come from the
replacement string or the original list. -/
theorem mem_replaceFirstList {c : Char} (pat rep : List Char) :
    ∀ l : List Char, c ∈ replaceFirstList pat rep l → c ∈ rep ∨ c ∈ l
  | [], h => by
    rw [replaceFirstList] at h
    split at h
    · exact Or.inl h
    · cases h
  | x :: xs, h => by
    rw [replaceFirstList] at h
    split at h
    · rcases List.mem_append.mp h with h1 | h2
      · exact Or.inl h1
      · exact Or.inr (List.mem_of_mem_drop h2)
    · rcases List.mem_cons.mp h with rfl | h2
      · exact Or.inr (List.mem_cons_self _ _)
      · rcases mem_replaceFirstList pat rep xs h2 with h3 | h4
        · exact Or.inl h3
        · exact Or.inr (List.mem_cons_of_mem _ h4)

/-- A second memoized scrub of the same email returns the identity and
state of the first (the first call caches under the original email). -/
theorem scrubbedEmailMemo_idem (names : Nat → String) (st : ScrubState) (email : String) :
    scrubbedEmailMemo names (scrubbedEmailMemo names st email).2 email =
      scrubbedEmailMemo names st email := by
  rcases hres : scrubbedEmailMemo names st email with ⟨ident, st'⟩
  rw [scrubbedEmailMemo] at hres
  cases hlook : st.memo.lookup email with
  | some cached =>
    rw [hlook] at hres
    dsimp only at hres
    cases hres
    rw [scrubbedEmailMemo, hlook]
  | none =>
    rw [hlook] at hres
    dsimp only at hres
    cases hres
    rw [scrubbedEmailMemo]
    dsimp only
    rw [List.lookup_cons_self]

/-- A user whose email ends in an allow-listed internal/test suffix is
returned unchanged with the state untouched. -/
theorem scrubPoolUser_skip (names : Nat → String) (st : ScrubState) (user : CognitoUser)
    (h : (jsEndsWith (oldEmailOf user) "cleo.com" ||
        jsEndsWith (oldEmailOf user) "mailosaur.io") = true) :
    scrubPoolUser names st user = (user, st) := by
  rw [scrubPoolUser]
  dsimp only
  rw [h]
  rfl

/-- In a scrubbed attribute list, the first `email` attribute is the
generated one (the filter removed every original `email` attribute). -/
theorem find?_email_scrubbed (attrs : List UserAttribute) (em fi la : String) :
    ((attrs.filter (fun attr =>
        !(["given_name", "family_name", "preferred_name", "email"].contains attr.Name))) ++
      ([⟨"email", em⟩, ⟨"given_name", fi⟩, ⟨"family_name", la⟩] :
        List UserAttribute)).find?
      (fun attr => attr.Name == "email") = some ⟨"email", em⟩ := by
  rw [List.find?_append]
  have h1 : (attrs.filter (fun attr =>
      !(["given_name", "family_name", "preferred_name", "email"].contains attr.Name))).find?
      (fun attr => attr.Name == "email") = none := by
    rw [List.find?_eq_none]
    intro x hx hpx
    have hname : x.Name = "email" := by simpa using hpx
    have hkeep := (List.mem_filter.mp hx).2
    rw [hname] at hkeep
    simp at hkeep
  rw [h1]
  rfl

/-- The behaviour of `scrubPoolUser` on a record with no `email`
attribute: the missing email is read as `""`, the record is scrubbed (not
skipped) with the memoized identity for `""`. -/
theorem scrubPoolUser_no_email (names : Nat → String) (st : ScrubState)
    (u : CognitoUser) (h : u.Attributes.find? (fun attr => attr.Name == "email") = none) :
    scrubPoolUser names st u =
      ({ u with
          Username :=
            if decide (0 ≤ jsIndexOf u.Username '@') then
              (scrubbedEmailMemo names st "").1.email
            else u.Username
          Attributes :=
            (u.Attributes.filter (fun attr =>
                !(["given_name", "family_name", "preferred_name", "email"].contains
                  attr.Name))) ++
              [⟨"email", (scrubbedEmailMemo names st "").1.email⟩,
                ⟨"given_name", (scrubbedEmailMemo names st "").1.first⟩,
                ⟨"family_name", (scrubbedEmailMemo names st "").1.last⟩] },
        (scrubbedEmailMemo names st "").2) := by
  have hold : oldEmailOf u = "" := by rw [oldEmailOf, h]; rfl
  rw [scrubPoolUser]
  dsimp only
  rw [hold]
  rw [show (jsEndsWith "" "cleo.com" || jsEndsWith "" "mailosaur.io") = false from rfl]
  rfl

/-- The behaviour of `scrubPoolUser` on any record whose email does not
end in an allow-listed suffix (this includes records with a present but
`@`-less or empty email value): the else branch runs — the record is
scrubbed with the memoized identity for its original email. -/
theorem scrubPoolUser_not_skipped (names : Nat → String) (st : ScrubState)
    (u : CognitoUser)
    (hallow : (jsEndsWith (oldEmailOf u) "cleo.com" ||
        jsEndsWith (oldEmailOf u) "mailosaur.io") = false) :
    scrubPoolUser names st u =
      ({ u with
          Username :=
            if decide (0 ≤ jsIndexOf u.Username '@') then
              (scrubbedEmailMemo names st (oldEmailOf u)).1.email
            else u.Username
          Attributes :=
            (u.Attributes.filter (fun attr =>
                !(["given_name", "family_name", "preferred_name", "email"].contains
                  attr.Name))) ++
              [⟨"email", (scrubbedEmailMemo names st (oldEmailOf u)).1.email⟩,
                ⟨"given_name", (scrubbedEmailMemo names st (oldEmailOf u)).1.first⟩,
                ⟨"family_name", (scrubbedEmailMemo names st (oldEmailOf u)).1.last⟩] },
        (scrubbedEmailMemo names st (oldEmailOf u)).2) := by
  rw [scrubPoolUser]
  dsimp only
  rw [hallow, if_neg Bool.false_ne_true]

/-! ## C7 — determinism of the anonymization transform -/

/-- C7: within one run the transform is deterministic — scrubbing the same
original email twice yields the identical `{first, last, email}` (and the
same state), since the memo is keyed on the original email; and a user
whose email is on a recognized internal/test domain (`cleo.com`,
`mailosaur.io`) is returned unchanged. -/
theorem scrub_deterministic_and_internal_domains (names : Nat → String)
    (st : ScrubState) (email : String) (user : CognitoUser) :
    scrubbedEmailMemo names (scrubbedEmailMemo names st email).2 email =
      scrubbedEmailMemo names st email ∧
    ((jsEndsWith (oldEmailOf user) "cleo.com" = true ∨
        jsEndsWith (oldEmailOf user) "mailosaur.io" = true) →
      scrubPoolUser names st user = (user, st)) := by
  refine ⟨scrubbedEmailMemo_idem names st email, ?_⟩
  intro h
  apply scrubPoolUser_skip
  rcases h with h | h <;> simp [h]

/-- The moniker name stream used by concrete runs. -/
def demoNames : Nat → String := fun _ => "happy-otter"

/-- A user on the internal `cleo.com` domain. -/
def userBobCleo : CognitoUser :=
  { Username := "bob@cleo.com", UserStatus := "CONFIRMED",
    Attributes := [⟨"email", "bob@cleo.com"⟩] }

/-- Witness for C7: scrubbing `"alice@example.com"` twice from the empty
state yields identical results, and the `cleo.com` user passes through. -/
theorem scrub_deterministic_and_internal_domains_witness :
    scrubbedEmailMemo demoNames
        (scrubbedEmailMemo demoNames ⟨[], 0⟩ "alice@example.com").2 "alice@example.com" =
      scrubbedEmailMemo demoNames ⟨[], 0⟩ "alice@example.com" ∧
    scrubPoolUser demoNames ⟨[], 0⟩ userBobCleo = (userBobCleo, ⟨[], 0⟩) :=
  ⟨(scrub_deterministic_and_internal_domains demoNames ⟨[], 0⟩ "alice@example.com"
      userBobCleo).1,
    (scrub_deterministic_and_internal_domains demoNames ⟨[], 0⟩ "alice@example.com"
      userBobCleo).2 (Or.inl (by decide))⟩

/-! ## C8 — the frame of `scrubPoolUser` -/

/-- A user carrying a `preferred_name` attribute. -/
def userPat : CognitoUser :=
  { Username := "pat", UserStatus := "CONFIRMED",
    Attributes := [⟨"preferred_name", "Patricia"⟩, ⟨"email", "pat@example.com"⟩] }

/-- C8 counterexample: the claim says only `given_name`, `family_name` and
`email` change and every other attribute passes through unchanged; but the
filter in `scrubPoolUser` also removes `preferred_name`, so `userPat`'s
`preferred_name` attribute is gone from the scrubbed record. -/
theorem scrubPoolUser_preferred_name_counterexample :
    userPat.Attributes.find? (fun attr => attr.Name == "preferred_name") =
      some ⟨"preferred_name", "Patricia"⟩ ∧
    ((scrubPoolUser demoNames ⟨[], 0⟩ userPat).1).Attributes.find?
      (fun attr => attr.Name == "preferred_name") = none := by
  exact ⟨rfl, rfl⟩

/-- The occurrences of any attribute other than the four scrubbed names
are unchanged by the rebuild of the attribute list. -/
theorem filter_other_scrubbed (attrs : List UserAttribute) (em fi la attrName : String)
    (hother : attrName ∉ ["given_name", "family_name", "preferred_name", "email"]) :
    ((attrs.filter (fun attr =>
        !(["given_name", "family_name", "preferred_name", "email"].contains attr.Name))) ++
      ([⟨"email", em⟩, ⟨"given_name", fi⟩, ⟨"family_name", la⟩] :
        List UserAttribute)).filter
      (fun attr => attr.Name == attrName) =
      attrs.filter (fun attr => attr.Name == attrName) := by
  have hem : attrName ≠ "email" := by intro hc; exact hother (by simp [hc])
  have hgn : attrName ≠ "given_name" := by intro hc; exact hother (by simp [hc])
  have hfn : attrName ≠ "family_name" := by intro hc; exact hother (by simp [hc])
  have hpn : attrName ≠ "preferred_name" := by intro hc; exact hother (by simp [hc])
  have e1 : ("email" == attrName) = false := beq_eq_false_iff_ne.mpr (Ne.symm hem)
  have e2 : ("given_name" == attrName) = false := beq_eq_false_iff_ne.mpr (Ne.symm hgn)
  have e3 : ("family_name" == attrName) = false := beq_eq_false_iff_ne.mpr (Ne.symm hfn)
  rw [List.filter_append, List.filter_filter]
  have htri : (([⟨"email", em⟩, ⟨"given_name", fi⟩, ⟨"family_name", la⟩] :
      List UserAttribute)).filter (fun attr => attr.Name == attrName) = [] := by
    simp only [List.filter_cons, List.filter_nil, e1, e2, e3]
    rfl
  rw [htri, List.append_nil]
  apply List.filter_congr
  intro x hx
  by_cases hname : (x.Name == attrName) = true
  · have hxn : x.Name = attrName := by simpa using hname
    have hcontains : (["given_name", "family_name", "preferred_name",
        "email"].contains x.Name) = false := by
      rw [hxn]
      simp [hgn, hfn, hpn, hem]
    rw [hname, hcontains]
    rfl
  · rw [Bool.not_eq_true] at hname
    rw [hname]
    simp

/-- No `preferred_name` attribute survives the rebuild of the attribute
list. -/
theorem filter_preferred_scrubbed (attrs : List UserAttribute) (em fi la : String) :
    ((attrs.filter (fun attr =>
        !(["given_name", "family_name", "preferred_name", "email"].contains attr.Name))) ++
      ([⟨"email", em⟩, ⟨"given_name", fi⟩, ⟨"family_name", la⟩] :
        List UserAttribute)).filter
      (fun attr => attr.Name == "preferred_name") = [] := by
  have e1 : ("email" == "preferred_name") = false := by decide
  have e2 : ("given_name" == "preferred_name") = false := by decide
  have e3 : ("family_name" == "preferred_name") = false := by decide
  rw [List.filter_append, List.filter_filter]
  have htri : (([⟨"email", em⟩, ⟨"given_name", fi⟩, ⟨"family_name", la⟩] :
      List UserAttribute)).filter (fun attr => attr.Name == "preferred_name") = [] := by
    simp only [List.filter_cons, List.filter_nil, e1, e2, e3]
    rfl
  rw [htri, List.append_nil]
  rw [List.filter_eq_nil_iff]
  intro x hx
  simp only [Bool.and_eq_true, beq_iff_eq, Bool.not_eq_true']
  rintro ⟨hxn, hkeep⟩
  rw [hxn] at hkeep
  simp at hkeep

/-- C8 (amended): for a record whose email is anonymized, `scrubPoolUser`
changes only the `given_name`, `family_name`, `email` and `preferred_name`
attributes — `preferred_name` is removed outright — plus the `Username`
when it is email-shaped; every other attribute and field passes through
unchanged. -/
theorem scrubPoolUser_frame (names : Nat → String) (st : ScrubState) (user : CognitoUser)
    (hscrub : (jsEndsWith (oldEmailOf user) "cleo.com" ||
        jsEndsWith (oldEmailOf user) "mailosaur.io") = false)
    (attrName : String)
    (hother : attrName ∉ ["given_name", "family_name", "preferred_name", "email"]) :
    ((scrubPoolUser names st user).1).UserStatus = user.UserStatus ∧
    (jsIndexOf user.Username '@' < 0 →
      ((scrubPoolUser names st user).1).Username = user.Username) ∧
    ((scrubPoolUser names st user).1).Attributes.filter
        (fun attr => attr.Name == attrName) =
      user.Attributes.filter (fun attr => attr.Name == attrName) ∧
    ((scrubPoolUser names st user).1).Attributes.filter
        (fun attr => attr.Name == "preferred_name") = [] := by
  rw [scrubPoolUser]
  dsimp only
  rw [hscrub]
  rw [if_neg Bool.false_ne_true]
  refine ⟨rfl, ?_, ?_, ?_⟩
  · intro hneg
    have hdec : decide (0 ≤ jsIndexOf user.Username '@') = false := by
      simp [Int.not_le.mpr hneg]
    rw [hdec]
    rfl
  · exact filter_other_scrubbed user.Attributes _ _ _ attrName hother
  · exact filter_preferred_scrubbed user.Attributes _ _ _

/-- A user with a phone-number attribute and a non-email username. -/
def userPhone : CognitoUser :=
  { Username := "pat", UserStatus := "CONFIRMED",
    Attributes := [⟨"phone_number", "+4670"⟩, ⟨"email", "pat@example.com"⟩] }

/-- Witness for C8's amended theorem on `userPhone`: status, username and
the phone-number attribute are untouched; `preferred_name` is absent. -/
theorem scrubPoolUser_frame_witness :
    ((scrubPoolUser demoNames ⟨[], 0⟩ userPhone).1).UserStatus = userPhone.UserStatus ∧
    ((scrubPoolUser demoNames ⟨[], 0⟩ userPhone).1).Username = userPhone.Username ∧
    ((scrubPoolUser demoNames ⟨[], 0⟩ userPhone).1).Attributes.filter
        (fun attr => attr.Name == "phone_number") =
      userPhone.Attributes.filter (fun attr => attr.Name == "phone_number") ∧
    ((scrubPoolUser demoNames ⟨[], 0⟩ userPhone).1).Attributes.filter
        (fun attr => attr.Name == "preferred_name") = [] := by
  have h := scrubPoolUser_frame demoNames ⟨[], 0⟩ userPhone (by decide) "phone_number"
    (by decide)
  exact ⟨h.1, h.2.1 (by decide), h.2.2.1, h.2.2.2⟩

/-! ## C10 — records without a usable email -/

/-- A user whose `email` attribute value contains no `@` but ends with the
allow-listed suffix `cleo.com`. -/
def userNoAt : CognitoUser :=
  { Username := "pat", UserStatus := "CONFIRMED",
    Attributes := [⟨"email", "patcleo.com"⟩] }

/-- C10 counterexample: the claim says every record whose email value
contains no `@` is still anonymized rather than skipped; but the skip
check is a plain suffix test on the raw value, so `userNoAt` (email
`"patcleo.com"`, no `@`) is returned unchanged — not anonymized (no
`given_name` attribute is added and the state is untouched). -/
theorem scrubPoolUser_no_at_skipped_counterexample :
    jsIndexOf (oldEmailOf userNoAt) '@' = -1 ∧
    scrubPoolUser demoNames ⟨[], 0⟩ userNoAt = (userNoAt, ⟨[], 0⟩) ∧
    ((scrubPoolUser demoNames ⟨[], 0⟩ userNoAt).1).Attributes.find?
      (fun attr => attr.Name == "given_name") = none := by
  exact ⟨rfl, rfl, rfl⟩

/-- C10 (amended): every record with no `email` attribute — or whose email
value contains no `@` *and does not end in an allow-listed suffix* — is
still anonymized rather than skipped.  For records with no `email`
attribute (`u1`, `u2` below): the missing email is read as `""`, the
derived domain is the substring from the `-1` index (the empty string),
all such records in a run share the single identity memoized under the
key `""`, and that identity's generated email contains no `@` (given the
name stream is `@`-free).  For a record (`u3` below) with a present but
`@`-less email value that does not end in an allow-listed suffix, the
record is likewise anonymized, not skipped: its `email` attribute is
replaced by the memoized identity's email and the memo call's state is
threaded through. -/
theorem scrubPoolUser_missing_email_spec (names : Nat → String) (st : ScrubState)
    (u1 u2 u3 : CognitoUser)
    (h1 : u1.Attributes.find? (fun attr => attr.Name == "email") = none)
    (h2 : u2.Attributes.find? (fun attr => attr.Name == "email") = none)
    (h3at : jsIndexOf (oldEmailOf u3) '@' = -1)
    (h3allow : (jsEndsWith (oldEmailOf u3) "cleo.com" ||
        jsEndsWith (oldEmailOf u3) "mailosaur.io") = false)
    (hmemo : st.memo.lookup "" = none)
    (hnames : ∀ k, '@' ∉ (names k).toList) :
    oldEmailOf u1 = "" ∧
    (scrubbedEmailMemo names st "").1.email = jsReplaceFirst (names st.nextName) "-" "." ∧
    '@' ∉ ((scrubbedEmailMemo names st "").1.email).toList ∧
    ((scrubPoolUser names st u1).1).Attributes.find? (fun attr => attr.Name == "email") =
      some ⟨"email", (scrubbedEmailMemo names st "").1.email⟩ ∧
    ((scrubPoolUser names ((scrubPoolUser names st u1).2) u2).1).Attributes.find?
        (fun attr => attr.Name == "email") =
      some ⟨"email", (scrubbedEmailMemo names st "").1.email⟩ ∧
    ((scrubPoolUser names st u3).1).Attributes.find? (fun attr => attr.Name == "email") =
      some ⟨"email", (scrubbedEmailMemo names st (oldEmailOf u3)).1.email⟩ ∧
    (scrubPoolUser names st u3).2 = (scrubbedEmailMemo names st (oldEmailOf u3)).2 := by
  have hold1 : oldEmailOf u1 = "" := by rw [oldEmailOf, h1]; rfl
  have hemail : (scrubbedEmailMemo names st "").1.email =
      jsReplaceFirst (names st.nextName) "-" "." := by
    rw [scrubbedEmailMemo, hmemo]
    dsimp only
    rw [show jsSubstring "" (jsIndexOf "" '@') = "" from rfl, String.append_empty]
  refine ⟨hold1, hemail, ?_, ?_, ?_, ?_, ?_⟩
  · rw [hemail]
    intro hmem
    rcases mem_replaceFirstList _ _ _ hmem with hrep | horig
    · simp at hrep
    · exact hnames st.nextName horig
  · rw [scrubPoolUser_no_email names st u1 h1]
    exact find?_email_scrubbed _ _ _ _
  · rw [scrubPoolUser_no_email names st u1 h1]
    dsimp only
    rw [scrubPoolUser_no_email names ((scrubbedEmailMemo names st "").2) u2 h2]
    dsimp only
    have hhit : scrubbedEmailMemo names ((scrubbedEmailMemo names st "").2) "" =
        scrubbedEmailMemo names st "" := scrubbedEmailMemo_idem names st ""
    rw [hhit]
    exact find?_email_scrubbed _ _ _ _
  · rw [scrubPoolUser_not_skipped names st u3 h3allow]
    exact find?_email_scrubbed _ _ _ _
  · rw [scrubPoolUser_not_skipped names st u3 h3allow]

/-- A first user record with no email attribute. -/
def userNoEmail1 : CognitoUser :=
  { Username := "x1", UserStatus := "CONFIRMED", Attributes := [] }

/-- A second user record with no email attribute. -/
def userNoEmail2 : CognitoUser :=
  { Username := "x2", UserStatus := "CONFIRMED",
    Attributes := [⟨"phone_number", "+4671"⟩] }

/-- A user whose `email` attribute value contains no `@` and does not end
in an allow-listed suffix. -/
def userNoAtPlain : CognitoUser :=
  { Username := "sam", UserStatus := "CONFIRMED",
    Attributes := [⟨"email", "patexample.com"⟩] }

/-- Witness for C10's amended theorem: from the empty state, two
email-less users share the single fabricated identity whose generated
email `"happy.otter"` contains no `@`, and the `@`-less non-allow-listed
email `"patexample.com"` is anonymized rather than skipped. -/
theorem scrubPoolUser_missing_email_spec_witness :
    oldEmailOf userNoEmail1 = "" ∧
    (scrubbedEmailMemo demoNames ⟨[], 0⟩ "").1.email =
      jsReplaceFirst (demoNames 0) "-" "." ∧
    '@' ∉ ((scrubbedEmailMemo demoNames ⟨[], 0⟩ "").1.email).toList ∧
    ((scrubPoolUser demoNames ⟨[], 0⟩ userNoEmail1).1).Attributes.find?
        (fun attr => attr.Name == "email") =
      some ⟨"email", (scrubbedEmailMemo demoNames ⟨[], 0⟩ "").1.email⟩ ∧
    ((scrubPoolUser demoNames ((scrubPoolUser demoNames ⟨[], 0⟩ userNoEmail1).2)
          userNoEmail2).1).Attributes.find? (fun attr => attr.Name == "email") =
      some ⟨"email", (scrubbedEmailMemo demoNames ⟨[], 0⟩ "").1.email⟩ ∧
    ((scrubPoolUser demoNames ⟨[], 0⟩ userNoAtPlain).1).Attributes.find?
        (fun attr => attr.Name == "email") =
      some ⟨"email",
        (scrubbedEmailMemo demoNames ⟨[], 0⟩ (oldEmailOf userNoAtPlain)).1.email⟩ ∧
    (scrubPoolUser demoNames ⟨[], 0⟩ userNoAtPlain).2 =
      (scrubbedEmailMemo demoNames ⟨[], 0⟩ (oldEmailOf userNoAtPlain)).2 :=
  scrubPoolUser_missing_email_spec demoNames ⟨[], 0⟩ userNoEmail1 userNoEmail2
    userNoAtPlain rfl rfl rfl (by decide) rfl
    (fun k => show ('@' ∉ "happy-otter".toList) by decide)

end CognitoExport
